import Mathlib

/-!
# Universal Thread Navigator — verification development

A shallow embedding of `src/content.js`, a browser content script that
augments ChatGPT/Gemini chat pages with a navigable index of user prompts.

The DOM is modelled as a rose tree of elements (`Elem`); a live node is
addressed by its path (list of child indices) from the document root, so
that sibling/ancestor navigation and document order are meaningful.
`innerText` and `textContent` are stored per element (rendered text is
layout-dependent and not derivable from the tree alone).  The retry poller
(`initExtension` plus the SPA mutation observer) is modelled as a
transition system over an explicit state.  JS string operations used by
the script (`toLowerCase`, `includes`, `trim`, `||`, `replace(/"/g, ...)`)
are modelled on `List Char` for the basic-latin range the script handles.
-/

namespace ThreadNav

/-- The platform tags of the `PLATFORMS` table in `content.js`. -/
inductive Platform : Type where
  | CHATGPT
  | GEMINI
  | UNKNOWN
  deriving DecidableEq, Repr

/-- The `CONFIG` object: retry ceiling and retry interval (ms). -/
structure Config where
  retryLimit : Nat
  retryInterval : Nat
  deriving DecidableEq, Repr

/-- `const CONFIG = { retryLimit: 20, retryInterval: 1000 }`. -/
def CONFIG : Config := { retryLimit := 20, retryInterval := 1000 }

/-! ## DOM model -/

/-- A DOM element: tag name (uppercase, as `Element.tagName` reports for
HTML), attribute list, class list, optional `innerText` and `textContent`
(absent = `undefined`), and child elements. -/
inductive Elem : Type where
  | mk (tagName : String) (attrs : List (String × String))
       (classes : List String)
       (innerText : Option String) (textContent : Option String)
       (children : List Elem)

def Elem.tagName : Elem → String
  | .mk t _ _ _ _ _ => t

def Elem.attrs : Elem → List (String × String)
  | .mk _ a _ _ _ _ => a

def Elem.classes : Elem → List String
  | .mk _ _ c _ _ _ => c

def Elem.innerText : Elem → Option String
  | .mk _ _ _ i _ _ => i

def Elem.textContent : Elem → Option String
  | .mk _ _ _ _ t _ => t

def Elem.children : Elem → List Elem
  | .mk _ _ _ _ _ ch => ch

/-- `Element.getAttribute`: first binding of the name, if any. -/
def getAttr (e : Elem) (name : String) : Option String :=
  (e.attrs.find? (fun a => a.1 == name)).map (fun a => a.2)

/-- An address of a node in the document: child indices from the root. -/
abbrev Path := List Nat

/-- Navigate a path from an element down its children. -/
def getPath : Elem → Path → Option Elem
  | e, [] => some e
  | e, i :: p =>
    match e.children.get? i with
    | some c => getPath c p
    | none => none

mutual
/-- All element paths of the subtree, in document (preorder) order;
the element itself is at `[]`. -/
def allPaths : Elem → List Path
  | .mk _ _ _ _ _ ch => [] :: allPathsFrom 0 ch

/-- Paths of a child list starting at child index `i`, document order. -/
def allPathsFrom : Nat → List Elem → List Path
  | _, [] => []
  | i, c :: cs => (allPaths c).map (fun p => i :: p) ++ allPathsFrom (i + 1) cs
end

/-- The CSS selectors the script uses: tag, `[a="v"]`, `[a^="v"]`, `.cls`. -/
inductive Sel : Type where
  | tag (name : String)
  | attrEq (name val : String)
  | attrStarts (name val : String)
  | cls (name : String)
  deriving DecidableEq, Repr

/-- JS `String.prototype.toUpperCase` restricted to basic latin
(the range tag names use), per character. -/
def jsToUpperChar (c : Char) : Char :=
  match c with
  | 'a' => 'A' | 'b' => 'B' | 'c' => 'C' | 'd' => 'D' | 'e' => 'E'
  | 'f' => 'F' | 'g' => 'G' | 'h' => 'H' | 'i' => 'I' | 'j' => 'J'
  | 'k' => 'K' | 'l' => 'L' | 'm' => 'M' | 'n' => 'N' | 'o' => 'O'
  | 'p' => 'P' | 'q' => 'Q' | 'r' => 'R' | 's' => 'S' | 't' => 'T'
  | 'u' => 'U' | 'v' => 'V' | 'w' => 'W' | 'x' => 'X' | 'y' => 'Y'
  | 'z' => 'Z' | other => other

/-- JS `toUpperCase` on a string (basic latin). -/
def jsToUpperStr (s : String) : String := ⟨s.toList.map jsToUpperChar⟩

/-- Is `needle` a prefix of `hay`? -/
def listStarts : List Char → List Char → Bool
  | _, [] => true
  | [], _ :: _ => false
  | a :: as, b :: bs => a == b && listStarts as bs

/-- Does an element match a selector?  Tag selectors are matched
case-insensitively against the uppercase `tagName`, as in HTML. -/
def matchesSel (sel : Sel) (e : Elem) : Bool :=
  match sel with
  | .tag name => e.tagName == jsToUpperStr name
  | .attrEq name val => getAttr e name == some val
  | .attrStarts name val =>
    match getAttr e name with
    | some s => listStarts s.toList val.toList
    | none => false
  | .cls name => e.classes.contains name

mutual
/-- Does some strict descendant of the element match the selector?
(`Element.querySelector` searches descendants only.) -/
def hasDescMatching (sel : Sel) : Elem → Bool
  | .mk _ _ _ _ _ ch => anySelfOrDesc sel ch

/-- Does some element of the list, or one of its descendants, match? -/
def anySelfOrDesc (sel : Sel) : List Elem → Bool
  | [] => false
  | c :: cs => matchesSel sel c || hasDescMatching sel c || anySelfOrDesc sel cs
end

/-- Does the node at path `p` (if valid) match the selector? -/
def matchesAt (root : Elem) (sel : Sel) (p : Path) : Bool :=
  match getPath root p with
  | some e => matchesSel sel e
  | none => false

/-- `document.querySelectorAll` with a comma-separated selector list:
all matching element paths, in document order. -/
def querySelectorAll (root : Elem) (sels : List Sel) : List Path :=
  (allPaths root).filter (fun p => sels.any (fun s => matchesAt root s p))

/-- `Element.nextElementSibling`, on paths. -/
def nextSibPath (root : Elem) (p : Path) : Option Path :=
  match p.getLast? with
  | none => none
  | some i =>
    match getPath root p.dropLast with
    | some parent =>
      if i + 1 < parent.children.length then some (p.dropLast ++ [i + 1])
      else none
    | none => none

/-- The path together with its ancestors, nearest first (self, parent, …,
root); `fuel` bounds the climb and is instantiated with the path length. -/
def selfAndAncestorsAux : Nat → Path → List Path
  | _, [] => [[]]
  | 0, _ :: _ => []
  | fuel + 1, p@(_ :: _) => p :: selfAndAncestorsAux fuel p.dropLast

/-- The path together with its ancestors, nearest first (self, parent, …,
root). -/
def selfAndAncestors (p : Path) : List Path := selfAndAncestorsAux p.length p

/-- `Element.closest`: nearest self-or-ancestor matching the selector. -/
def closest (root : Elem) (p : Path) (sel : Sel) : Option Path :=
  (selfAndAncestors p).find? (fun q => matchesAt root sel q)

/-! ## JS string helpers -/

/-- JS truthiness of a possibly-`undefined` string: `undefined` and the
empty string are falsy. -/
def jsTruthyStr : Option String → Bool
  | none => false
  | some s => s ≠ ""

/-- The whitespace characters JS `trim` removes (ASCII range, the only
range the script handles). -/
def isJsWhitespace (c : Char) : Bool :=
  c = ' ' || c = '\t' || c = '\n' || c = '\r' || c = '\x0b' || c = '\x0c'

/-- JS `String.prototype.trim`: strip leading and trailing whitespace. -/
def jsTrim (s : String) : String :=
  ⟨((s.toList.dropWhile isJsWhitespace).reverse.dropWhile isJsWhitespace).reverse⟩

/-- JS `a || b` on possibly-`undefined` strings: `a` if truthy, else `b`. -/
def jsOrStr (a b : Option String) : Option String :=
  match a with
  | some s => if s ≠ "" then some s else b
  | none => b

/-- JS `String.prototype.toLowerCase` restricted to basic latin
(the only range the script relies on), per character. -/
def jsToLowerChar (c : Char) : Char :=
  match c with
  | 'A' => 'a' | 'B' => 'b' | 'C' => 'c' | 'D' => 'd' | 'E' => 'e'
  | 'F' => 'f' | 'G' => 'g' | 'H' => 'h' | 'I' => 'i' | 'J' => 'j'
  | 'K' => 'k' | 'L' => 'l' | 'M' => 'm' | 'N' => 'n' | 'O' => 'o'
  | 'P' => 'p' | 'Q' => 'q' | 'R' => 'r' | 'S' => 's' | 'T' => 't'
  | 'U' => 'u' | 'V' => 'v' | 'W' => 'w' | 'X' => 'x' | 'Y' => 'y'
  | 'Z' => 'z' | other => other

/-- JS `toLowerCase` on a string (basic latin). -/
def jsToLowerStr (s : String) : String := ⟨s.toList.map jsToLowerChar⟩

/-- Is `needle` a contiguous substring of `hay`? -/
def listContainsSub : List Char → List Char → Bool
  | [], needle => listStarts [] needle
  | hay@(_ :: t), needle => listStarts hay needle || listContainsSub t needle

/-- JS `s.includes(sub)`: substring containment. -/
def jsIncludes (s sub : String) : Bool := listContainsSub s.toList sub.toList

/-! ## Message locator (`findUserMessages`, `findAIResponse`,
`extractMessageText`) -/

/-- The whitespace-only filter of the Gemini branch:
`el.innerText && el.innerText.trim().length > 0`. -/
def geminiTextFilter (root : Elem) (p : Path) : Bool :=
  match getPath root p with
  | some e =>
    jsTruthyStr e.innerText && decide (0 < (jsTrim (e.innerText.getD "")).length)
  | none => false

/-- `findUserMessages(platform)`: platform-specific enumeration of
user-authored message nodes, as paths in document order. -/
def findUserMessages (root : Elem) (platform : Platform) : List Path :=
  match platform with
  | .GEMINI =>
    let msgs := querySelectorAll root [Sel.tag "user-query"]
    let msgs :=
      if msgs.length = 0 then
        querySelectorAll root
          [Sel.attrEq "data-testid" "user-query", Sel.cls "user-query"]
      else msgs
    msgs.filter (geminiTextFilter root)
  | .CHATGPT =>
    querySelectorAll root [Sel.attrEq "data-message-author-role" "user"]
  | .UNKNOWN => []

/-- The per-candidate AI-response predicate of `findAIResponse`'s loop
body (the two platform `if`s). -/
def isAIResponseAt (root : Elem) (platform : Platform) (p : Path) : Bool :=
  match getPath root p with
  | none => false
  | some c =>
    match platform with
    | .GEMINI =>
      c.tagName == "MODEL-RESPONSE" || c.classes.contains "model-response" ||
        getAttr c "data-testid" == some "model-response"
    | .CHATGPT =>
      hasDescMatching (Sel.attrEq "data-message-author-role" "assistant") c ||
        getAttr c "data-message-author-role" == some "assistant"
    | .UNKNOWN => false

/-- The `while (candidate && attempts < 10)` loop, with `fuel` the number
of remaining attempts (`10 - attempts`). -/
def findAIRLoop (root : Elem) (platform : Platform) :
    Option Path → Nat → Option Path
  | none, _ => none
  | some _, 0 => none
  | some c, fuel + 1 =>
    if isAIResponseAt root platform c then some c
    else findAIRLoop root platform (nextSibPath root c) fuel

/-- The post-loop fallback: for ChatGPT, the next sibling of the
enclosing `[data-testid^="conversation-turn"]` container, if both exist. -/
def turnFallback (root : Elem) (userMessage : Path) (platform : Platform) :
    Option Path :=
  match platform with
  | .CHATGPT =>
    match closest root userMessage (Sel.attrStarts "data-testid" "conversation-turn") with
    | some turn => nextSibPath root turn
    | none => none
  | _ => none

/-- `findAIResponse(userMessage, platform)`: bounded forward-sibling walk,
then the platform-specific fallback, else `null`. -/
def findAIResponse (root : Elem) (userMessage : Path) (platform : Platform) :
    Option Path :=
  match findAIRLoop root platform (nextSibPath root userMessage) 10 with
  | some r => some r
  | none => turnFallback root userMessage platform

/-- `extractMessageText(element)`:
`if (!element) return ''; return element.innerText?.trim() || element.textContent?.trim() || ''`. -/
def extractMessageText (element : Option Elem) : String :=
  match element with
  | none => ""
  | some e =>
    (jsOrStr (e.innerText.map jsTrim) (e.textContent.map jsTrim)).getD ""

/-- The chain of up to `n` following siblings starting at a candidate
(the nodes the loop visits, in document order). -/
def sibChain (root : Elem) : Option Path → Nat → List Path
  | none, _ => []
  | some _, 0 => []
  | some p, n + 1 => p :: sibChain root (nextSibPath root p) n

/-! ## Readiness poller (`initExtension` + SPA mutation observer)

Modelled as a transition system.  The state carries the global
`retryCount`, the number of trigger buttons in the document
(`document.getElementById('thread-navigator-btn')` is truthy iff it is
nonzero; `createFloatingButton` appends one), and a running count of
`setTimeout(initExtension, …)` calls issued, to reason about scheduling. -/

structure PollState where
  retryCount : Nat
  buttonCount : Nat
  scheduled : Nat
  deriving DecidableEq, Repr

/-- The events that drive the poller: an `initExtension` invocation with
the platform resolution and readiness-check outcome it observes, or a
mutation-observer callback with whether the address changed. -/
inductive PollEvent : Type where
  | check (platform : Platform) (ready : Bool)
  | mutation (urlChanged : Bool)
  deriving DecidableEq, Repr

/-- One step: the body of `initExtension` (lines 31–50) for `check`, the
`MutationObserver` callback (lines 329–335) for `mutation`. -/
def pollStep : PollEvent → PollState → PollState
  | .check platform ready, s =>
    if platform = Platform.UNKNOWN then s
    else if s.buttonCount ≠ 0 then s
    else if ready then { s with buttonCount := s.buttonCount + 1 }
    else if s.retryCount < CONFIG.retryLimit then
      { s with retryCount := s.retryCount + 1, scheduled := s.scheduled + 1 }
    else s
  | .mutation urlChanged, s =>
    if urlChanged then { s with retryCount := 0, scheduled := s.scheduled + 1 }
    else s

/-- The state after a sequence of events from a fresh page load
(`retryCount = 0`, no trigger, nothing scheduled). -/
def pollRun (evts : List PollEvent) : PollState :=
  evts.foldl (fun s e => pollStep e s) ⟨0, 0, 0⟩

/-! ## Navigator UI -/

/-- One rendered `.prompt-item`: positional index, displayed ordinal,
display text, and the `data-full-text` search key as it stands in the
parsed document (the value `getAttribute` returns). -/
structure PromptItem where
  index : Nat
  number : Nat
  text : String
  searchKey : String
  deriving DecidableEq, Repr

/-- `text.replace(/"/g, '&quot;')`, per character. -/
def escapeQuotesList : List Char → List Char
  | [] => []
  | c :: cs =>
    if c = '"' then '&' :: 'q' :: 'u' :: 'o' :: 't' :: ';' :: escapeQuotesList cs
    else c :: escapeQuotesList cs

/-- `text.replace(/"/g, '&quot;')` on strings. -/
def escapeQuotes (s : String) : String := ⟨escapeQuotesList s.toList⟩

/-- The HTML parser's decoding of the `&quot;` character reference in an
attribute value (the only reference the template introduces): every
occurrence of the five-character sequence `&quot;` becomes `"`. -/
def decodeQuotList : List Char → List Char
  | [] => []
  | '&' :: 'q' :: 'u' :: 'o' :: 't' :: ';' :: rest => '"' :: decodeQuotList rest
  | c :: rest => c :: decodeQuotList rest

/-- `&quot;`-reference decoding on strings. -/
def decodeQuot (s : String) : String := ⟨decodeQuotList s.toList⟩

/-- The list of `.prompt-item`s rendered by `generatePromptsListHTML`
once `modal.innerHTML` has parsed the template (the empty-state branch
renders no items).  The template writes
`text.replace(/"/g, '&quot;').toLowerCase()` into the `data-full-text`
attribute position; the HTML parser then decodes the `&quot;` character
references in the attribute value, so `searchKey` — the value
`getAttribute` hands the search handler — is the decode of that
string. -/
def generatePromptsList (root : Elem) (userMessages : List Path) : List PromptItem :=
  userMessages.enum.map (fun ip =>
    let text := extractMessageText (getPath root ip.2)
    let safeText := escapeQuotes text
    { index := ip.1, number := ip.1 + 1, text := text,
      searchKey := decodeQuot (jsToLowerStr safeText) })

/-- The search `input` handler: lowercase the field value, then each
item is shown (`display: grid`) iff its `data-full-text` contains the
term; `true` = visible. -/
def searchDisplay (value : String) (keys : List String) : List Bool :=
  let term := jsToLowerStr value
  keys.map (fun k => jsIncludes k term)

/-- Observable outcome of an action handler: notifications shown (message,
type), whether the modal was removed, paths scrolled to, and highlights
applied (path, color). -/
structure ActionOutcome where
  notifications : List (String × String)
  modalRemoved : Bool
  scrolled : List Path
  highlighted : List (Path × String)
  deriving DecidableEq, Repr

/-- The platform-specific highlight color of `highlightElement`. -/
def highlightColor (platform : Platform) : String :=
  if platform = Platform.GEMINI then "rgba(26, 115, 232, 0.2)"
  else "rgba(16, 163, 127, 0.2)"

/-- `copyAIResponse(userMessage, platform)`, with the clipboard write
modelled as an external `Except` outcome; the whole handler is
`Except`-valued so that an uncaught exception would surface as `.error`.
The `try`/`catch` around `navigator.clipboard.writeText` maps a clipboard
error to the `'Failed to copy'` notification. -/
def copyAIResponse (root : Elem) (userMessage : Path) (platform : Platform)
    (clipboard : Except String Unit) : Except String ActionOutcome :=
  match findAIResponse root userMessage platform with
  | none =>
    .ok { notifications := [("AI response not found", "error")],
          modalRemoved := false, scrolled := [], highlighted := [] }
  | some _ =>
    match clipboard with
    | .ok _ =>
      .ok { notifications := [("Response copied!", "success")],
            modalRemoved := false, scrolled := [], highlighted := [] }
    | .error _ =>
      .ok { notifications := [("Failed to copy", "error")],
            modalRemoved := false, scrolled := [], highlighted := [] }

/-- `goToAIResponse(userMessage, platform)`: target is the AI response,
or the user message itself when none is found; scroll and highlight it. -/
def goToAIResponse (root : Elem) (userMessage : Path) (platform : Platform) :
    ActionOutcome :=
  let aiResponse := findAIResponse root userMessage platform
  let target := aiResponse.getD userMessage
  { notifications := [], modalRemoved := false,
    scrolled := [target], highlighted := [(target, highlightColor platform)] }

/-- The `goto-btn` branch of the delegated click handler: run
`goToAIResponse`, then `modal.remove()`. -/
def gotoHandler (root : Elem) (userMessage : Path) (platform : Platform) :
    ActionOutcome :=
  let g := goToAIResponse root userMessage platform
  { g with modalRemoved := true }

/-! ## Highlight timeline (`highlightElement`) -/

/-- The inline style fields `highlightElement` touches. -/
structure ElemStyle where
  backgroundColor : String
  transition : String
  deriving DecidableEq, Repr

/-- The timed style writes of `highlightElement`, as (delay from call,
resulting style) in order: immediately set the transition and the
highlight color; at 1500 ms restore the original background; 500 ms
later restore the original transition. -/
def highlightTimeline (st : ElemStyle) (platform : Platform) :
    List (Nat × ElemStyle) :=
  [ (0, { backgroundColor := highlightColor platform,
          transition := "background-color 0.5s ease" }),
    (1500, { backgroundColor := st.backgroundColor,
             transition := "background-color 0.5s ease" }),
    (1500 + 500, { backgroundColor := st.backgroundColor,
                   transition := st.transition }) ]

/-- Replay a chronologically ordered event list up to time `t`. -/
def applyEvents : List (Nat × ElemStyle) → Nat → ElemStyle → ElemStyle
  | [], _, cur => cur
  | (d, s) :: rest, t, cur =>
    if d ≤ t then applyEvents rest t s else cur

/-- The element's inline style `t` ms after `highlightElement` is called
on an element whose style was `st`. -/
def styleAt (st : ElemStyle) (platform : Platform) (t : Nat) : ElemStyle :=
  applyEvents (highlightTimeline st platform) t st

/-! ## Example documents (used by witnesses and counterexamples) -/

/-- An empty page body: no messages at all. -/
def docEmpty : Elem := .mk "BODY" [] [] none none []

/-- A ChatGPT page with a single user-role node whose rendered text is
whitespace-only. -/
def docCGws : Elem :=
  .mk "BODY" [] [] none none
    [.mk "DIV" [("data-message-author-role", "user")] []
      (some "   ") (some "   ") []]

/-- A Gemini page whose single user query text contains double quotes. -/
def docQ : Elem :=
  .mk "BODY" [] [] none none
    [.mk "USER-QUERY" [] [] (some "say \"Hi\"") (some "say \"Hi\"") []]

/-- A Gemini page with one user query followed by one model response. -/
def docG : Elem :=
  .mk "BODY" [] [] none none
    [.mk "USER-QUERY" [] [] (some "hi") (some "hi") [],
     .mk "MODEL-RESPONSE" [] [] (some "resp") (some "resp") []]

/-! ## Theorems -/

/-- C9: `extractMessageText` is total: it is a function into `String`,
returning `""` for a null/undefined element and for an element whose
`innerText` and `textContent` are both absent, and (being a Lean
function) it never throws. -/
theorem extractMessageText_total :
    extractMessageText none = "" ∧
    (∀ tagName attrs classes children,
      extractMessageText
        (some (Elem.mk tagName attrs classes none none children)) = "") ∧
    (∀ element, extractMessageText element = "" ∨
      extractMessageText element ≠ "") := by
  refine ⟨rfl, fun _ _ _ _ => rfl, fun element => ?_⟩
  by_cases h : extractMessageText element = ""
  · exact Or.inl h
  · exact Or.inr h

/-- C6: on every keystroke each item's visibility is substring
containment of the lowercased term in the item's precomputed lowercase
search key; on keys `["hello world", "foo bar"]` with term `"wor"`,
exactly the first entry stays visible. -/
theorem searchFilter_spec :
    (∀ (value : String) (keys : List String) (i : Nat),
      (searchDisplay value keys)[i]? =
        (keys[i]?).map (fun k => jsIncludes k (jsToLowerStr value))) ∧
    searchDisplay "wor" ["hello world", "foo bar"] = [true, false] := by
  constructor
  · intro value keys i
    simp [searchDisplay]
  · decide

/-- C7: `highlightElement` performs a two-phase timed revert: the style
holds the platform highlight color and the transient transition before
1500 ms, the original background color from 1500 ms on, and from
2000 ms on the whole inline style is exactly as found. -/
theorem highlight_two_phase_revert (st : ElemStyle) (platform : Platform) :
    (∀ t, t < 1500 → styleAt st platform t =
      { backgroundColor := highlightColor platform,
        transition := "background-color 0.5s ease" }) ∧
    (∀ t, 1500 ≤ t →
      (styleAt st platform t).backgroundColor = st.backgroundColor) ∧
    (∀ t, 1500 ≤ t → t < 2000 →
      (styleAt st platform t).transition = "background-color 0.5s ease") ∧
    (∀ t, 2000 ≤ t → styleAt st platform t = st) := by
  refine ⟨fun t ht => ?_, fun t ht => ?_, fun t ht ht2 => ?_, fun t ht => ?_⟩ <;>
    simp only [styleAt, highlightTimeline, applyEvents] <;>
    split_ifs <;> first | rfl | omega

/-- C8: the jump action resolves the AI response, silently falls back to
the user message itself when none is found, scrolls the target into
view, applies the platform highlight to it, and closes the modal. -/
theorem goto_jump_fallback (root : Elem) (p : Path) (platform : Platform) :
    (gotoHandler root p platform).scrolled =
      [(findAIResponse root p platform).getD p] ∧
    (gotoHandler root p platform).highlighted =
      [((findAIResponse root p platform).getD p, highlightColor platform)] ∧
    (gotoHandler root p platform).modalRemoved = true ∧
    (gotoHandler root p platform).notifications = [] ∧
    (findAIResponse root p platform = none →
      (gotoHandler root p platform).scrolled = [p]) := by
  refine ⟨rfl, rfl, rfl, rfl, fun h => ?_⟩
  simp [gotoHandler, goToAIResponse, h]

/-- C8 witness: on the empty document the response is not found and the
jump action falls back to the user message itself. -/
theorem goto_jump_fallback_witness :
    (gotoHandler docEmpty [] .GEMINI).scrolled = [[]] :=
  (goto_jump_fallback docEmpty [] .GEMINI).2.2.2.2 (by decide)

/-- C5: the copy action never lets an exception escape (it always
returns `.ok`); when no AI response is found it shows the
`'AI response not found'` error notification and leaves the modal open;
when the clipboard write fails the failure is caught and surfaced as
the `'Failed to copy'` error notification, again leaving the modal
open. -/
theorem copy_error_handling (root : Elem) (p : Path) (platform : Platform)
    (clipboard : Except String Unit) :
    (∃ o, copyAIResponse root p platform clipboard = .ok o) ∧
    (findAIResponse root p platform = none →
      copyAIResponse root p platform clipboard =
        .ok { notifications := [("AI response not found", "error")],
              modalRemoved := false, scrolled := [], highlighted := [] }) ∧
    (∀ r e, findAIResponse root p platform = some r →
      clipboard = .error e →
      copyAIResponse root p platform clipboard =
        .ok { notifications := [("Failed to copy", "error")],
              modalRemoved := false, scrolled := [], highlighted := [] }) := by
  refine ⟨?_, fun h => ?_, fun r e hr hc => ?_⟩
  · unfold copyAIResponse
    cases findAIResponse root p platform with
    | none => exact ⟨_, rfl⟩
    | some _ => cases clipboard with
      | ok _ => exact ⟨_, rfl⟩
      | error _ => exact ⟨_, rfl⟩
  · simp [copyAIResponse, h]
  · simp [copyAIResponse, hr, hc]

/-- C5 witness: on the empty document the copy action reports
`'AI response not found'`, and on a page with a response but a denied
clipboard it reports `'Failed to copy'`; both leave the modal open. -/
theorem copy_error_handling_witness :
    copyAIResponse docEmpty [] .GEMINI (.error "denied") =
      .ok { notifications := [("AI response not found", "error")],
            modalRemoved := false, scrolled := [], highlighted := [] } ∧
    copyAIResponse docG [0] .GEMINI (.error "denied") =
      .ok { notifications := [("Failed to copy", "error")],
            modalRemoved := false, scrolled := [], highlighted := [] } :=
  ⟨(copy_error_handling docEmpty [] .GEMINI (.error "denied")).2.1 (by decide),
   (copy_error_handling docG [0] .GEMINI (.error "denied")).2.2 [1] "denied"
     (by decide) rfl⟩

/-- C2: on a page instance the poller schedules a retry on every failed
readiness check while `retryCount < retryLimit`, stops scheduling (and
changing state at all) once `retryLimit` (20) failed checks have
occurred, and the counter is reset to 0 only by an observed address
change; from a fresh page, exactly `retryLimit` failed checks exhaust
the poller. -/
theorem poller_retry_limit (s : PollState) (platform : Platform) :
    (platform ≠ .UNKNOWN → s.buttonCount = 0 →
      s.retryCount < CONFIG.retryLimit →
      pollStep (.check platform false) s =
        { s with retryCount := s.retryCount + 1,
                 scheduled := s.scheduled + 1 }) ∧
    (CONFIG.retryLimit ≤ s.retryCount →
      pollStep (.check platform false) s = s) ∧
    (∀ e : PollEvent, (pollStep e s).retryCount < s.retryCount →
      e = .mutation true) ∧
    ((pollStep (.mutation true) s).retryCount = 0) ∧
    (platform ≠ .UNKNOWN →
      pollRun (List.replicate CONFIG.retryLimit (.check platform false)) =
        { retryCount := CONFIG.retryLimit, buttonCount := 0,
          scheduled := CONFIG.retryLimit }) := by
  refine ⟨fun hp hb hr => ?_, fun hr => ?_, fun e he => ?_, ?_, fun hp => ?_⟩
  · simp only [pollStep]
    rw [if_neg hp, if_neg (by simp [hb]), if_neg (by simp), if_pos hr]
  · simp only [pollStep]
    split_ifs <;> first | rfl | omega | exact False.elim (by assumption)
  · cases e with
    | check platform ready =>
      exfalso
      simp only [pollStep] at he
      split_ifs at he <;> simp_all

    | mutation urlChanged =>
      cases urlChanged with
      | false => simp [pollStep] at he
      | true => rfl
  · simp [pollStep]
  · cases platform with
    | CHATGPT => decide
    | GEMINI => decide
    | UNKNOWN => exact absurd rfl hp

/-- C2 witness: from a fresh supported page with no trigger, a failed
check schedules a retry; after 20 failed checks a further failed check
is a no-op; an address change resets the counter; and 20 failed checks
from a fresh page exhaust the poller. -/
theorem poller_retry_limit_witness :
    pollStep (.check .CHATGPT false) ⟨0, 0, 0⟩ = ⟨1, 0, 1⟩ ∧
    pollStep (.check .CHATGPT false) ⟨20, 0, 20⟩ = ⟨20, 0, 20⟩ ∧
    (pollStep (.mutation true) ⟨20, 0, 20⟩).retryCount = 0 ∧
    pollRun (List.replicate 20 (.check .CHATGPT false)) = ⟨20, 0, 20⟩ :=
  ⟨(poller_retry_limit ⟨0, 0, 0⟩ .CHATGPT).1 (by decide) rfl (by decide),
   (poller_retry_limit ⟨20, 0, 20⟩ .CHATGPT).2.1 (by decide),
   (poller_retry_limit ⟨20, 0, 20⟩ .CHATGPT).2.2.2.1,
   (poller_retry_limit ⟨0, 0, 0⟩ .CHATGPT).2.2.2.2 (by decide)⟩

/-- C4: at most one trigger control exists in the document after any
sequence of ready-checks and observer callbacks from a fresh page, and
`initExtension` never constructs a second trigger while one exists. -/
theorem poller_single_trigger :
    (∀ evts : List PollEvent, (pollRun evts).buttonCount ≤ 1) ∧
    (∀ (e : PollEvent) (s : PollState), 1 ≤ s.buttonCount →
      (pollStep e s).buttonCount = s.buttonCount) := by
  have hstep : ∀ (e : PollEvent) (s : PollState), 1 ≤ s.buttonCount →
      (pollStep e s).buttonCount = s.buttonCount := by
    intro e s hs
    cases e with
    | check platform ready =>
      simp only [pollStep]
      split_ifs <;> simp_all
    | mutation urlChanged =>
      cases urlChanged <;> simp [pollStep]
  refine ⟨?_, hstep⟩
  intro evts
  suffices h : ∀ s : PollState, s.buttonCount ≤ 1 →
      (evts.foldl (fun s e => pollStep e s) s).buttonCount ≤ 1 by
    exact h ⟨0, 0, 0⟩ (by decide)
  induction evts with
  | nil => intro s hs; exact hs
  | cons e rest ih =>
    intro s hs
    refine ih _ ?_
    cases e with
    | check platform ready =>
      simp only [pollStep]
      split_ifs <;> simp_all
    | mutation urlChanged =>
      cases urlChanged <;> simpa [pollStep] using hs

/-- C4 witness: when a trigger already exists, a ready check constructs
no second trigger. -/
theorem poller_single_trigger_witness :
    (pollStep (.check .CHATGPT true) ⟨0, 1, 0⟩).buttonCount = 1 :=
  poller_single_trigger.2 (.check .CHATGPT true) ⟨0, 1, 0⟩ (by decide)


/-- Helper for C3: the bounded loop equals the first match in the chain
of visited siblings. -/
theorem findAIRLoop_eq_find (root : Elem) (platform : Platform) :
    ∀ (fuel : Nat) (c : Option Path),
      findAIRLoop root platform c fuel =
        (sibChain root c fuel).find? (isAIResponseAt root platform) := by
  intro fuel
  induction fuel with
  | zero => intro c; cases c <;> simp [findAIRLoop, sibChain]
  | succ n ih =>
    intro c
    cases c with
    | none => simp [findAIRLoop, sibChain]
    | some p =>
      by_cases h : isAIResponseAt root platform p
      · simp [findAIRLoop, sibChain, h]
      · simp [findAIRLoop, sibChain, h, ih]

/-- C3: `findAIResponse` returns the earliest of the at most 10 visited
following siblings that satisfies the platform's AI-response predicate,
falling back to the platform-specific fallback (for ChatGPT, the next
sibling of the enclosing conversation-turn container) when the bounded
walk finds none; it returns `none` exactly when both the bounded walk
and the fallback fail. -/
theorem findAIResponse_characterization (root : Elem) (p : Path)
    (platform : Platform) :
    findAIResponse root p platform =
      ((sibChain root (nextSibPath root p) 10).find?
          (isAIResponseAt root platform)).orElse
        (fun _ => turnFallback root p platform) ∧
    (findAIResponse root p platform = none ↔
      (sibChain root (nextSibPath root p) 10).find?
          (isAIResponseAt root platform) = none ∧
        turnFallback root p platform = none) := by
  have hloop := findAIRLoop_eq_find root platform 10 (nextSibPath root p)
  constructor
  · simp only [findAIResponse, hloop]
    cases (sibChain root (nextSibPath root p) 10).find?
        (isAIResponseAt root platform) <;> rfl
  · simp only [findAIResponse, hloop]
    cases (sibChain root (nextSibPath root p) 10).find?
        (isAIResponseAt root platform) <;> simp


/-- C1 counterexample: on a ChatGPT page, a user-role node whose
rendered text is whitespace-only (so its extracted text is empty) is
still returned by `findUserMessages` — the whitespace filter is not
applied on the ChatGPT branch, refuting the claim for every platform. -/
theorem findUserMessages_whitespace_counterexample :
    findUserMessages docCGws .CHATGPT = [[0]] ∧
    (getPath docCGws [0]).bind Elem.innerText = some "   " ∧
    jsTrim "   " = "" ∧
    extractMessageText (getPath docCGws [0]) = "" := by
  decide

/-- Helper for C1: a selector query is a sublist of the document-order
enumeration of all nodes. -/
theorem querySelectorAll_sublist (root : Elem) (sels : List Sel) :
    (querySelectorAll root sels).Sublist (allPaths root) :=
  List.filter_sublist _

/-- C1 (amended): `findUserMessages` returns nodes in document order on
every platform, but the empty/whitespace-text filter is applied only on
the Gemini branch: every Gemini result has truthy, non-whitespace
`innerText`, while the ChatGPT branch returns exactly the nodes matching
the user-role selector, with no text filter. -/
theorem findUserMessages_order_and_filter (root : Elem) :
    (∀ platform, (findUserMessages root platform).Sublist (allPaths root)) ∧
    (∀ p, p ∈ findUserMessages root .GEMINI →
      ∃ e, getPath root p = some e ∧ jsTruthyStr e.innerText = true ∧
        0 < (jsTrim (e.innerText.getD "")).length) ∧
    (∀ p, p ∈ findUserMessages root .CHATGPT ↔
      p ∈ allPaths root ∧
        matchesAt root (Sel.attrEq "data-message-author-role" "user") p = true) := by
  refine ⟨fun platform => ?_, fun p hp => ?_, fun p => ?_⟩
  · cases platform with
    | GEMINI =>
      show ((if (querySelectorAll root [Sel.tag "user-query"]).length = 0
             then querySelectorAll root
               [Sel.attrEq "data-testid" "user-query", Sel.cls "user-query"]
             else querySelectorAll root [Sel.tag "user-query"]).filter
               (geminiTextFilter root)).Sublist (allPaths root)
      refine List.Sublist.trans (List.filter_sublist _) ?_
      split
      · exact querySelectorAll_sublist root _
      · exact querySelectorAll_sublist root _
    | CHATGPT => exact querySelectorAll_sublist root _
    | UNKNOWN => exact List.nil_sublist _
  · have hfilter : geminiTextFilter root p = true := List.of_mem_filter hp
    simp only [geminiTextFilter] at hfilter
    cases hg : getPath root p with
    | none => rw [hg] at hfilter; exact absurd hfilter (by simp)
    | some e =>
      rw [hg] at hfilter
      simp only [Bool.and_eq_true, decide_eq_true_eq] at hfilter
      exact ⟨e, rfl, hfilter.1, hfilter.2⟩
  · simp [findUserMessages, querySelectorAll, List.mem_filter]

/-- C1 witness: on the Gemini example page, the returned entry has
truthy, non-whitespace rendered text. -/
theorem findUserMessages_order_and_filter_witness :
    ∃ e, getPath docG [0] = some e ∧ jsTruthyStr e.innerText = true ∧
      0 < (jsTrim (e.innerText.getD "")).length :=
  (findUserMessages_order_and_filter docG).2.1 [0] (by decide)

/-- C7 witness: concrete sample points of the highlight timeline on a
Gemini element with inline style `red`/`none`. -/
theorem highlight_two_phase_revert_witness :
    styleAt ⟨"red", "none"⟩ .GEMINI 0 =
      { backgroundColor := highlightColor .GEMINI,
        transition := "background-color 0.5s ease" } ∧
    (styleAt ⟨"red", "none"⟩ .GEMINI 1500).backgroundColor = "red" ∧
    (styleAt ⟨"red", "none"⟩ .GEMINI 1700).transition =
      "background-color 0.5s ease" ∧
    styleAt ⟨"red", "none"⟩ .GEMINI 2000 = ⟨"red", "none"⟩ :=
  ⟨(highlight_two_phase_revert ⟨"red", "none"⟩ .GEMINI).1 0 (by decide),
   (highlight_two_phase_revert ⟨"red", "none"⟩ .GEMINI).2.1 1500 (by decide),
   (highlight_two_phase_revert ⟨"red", "none"⟩ .GEMINI).2.2.1 1700
     (by decide) (by decide),
   (highlight_two_phase_revert ⟨"red", "none"⟩ .GEMINI).2.2.2 2000 (by decide)⟩


/-- Helper for C10: decoding steps over any character other than `'&'`. -/
theorem decodeQuotList_cons_ne (c : Char) (t : List Char) (hc : c ≠ '&') :
    decodeQuotList (c :: t) = c :: decodeQuotList t := by
  rw [decodeQuotList.eq_def]
  split
  · simp_all
  · simp_all
  · rename_i x c2 rest hno heq
    cases heq
    rfl

/-- Helper for C10: lowercasing maps only `'&'` to `'&'`. -/
theorem jsToLowerChar_ne_amp (c : Char) (hc : c ≠ '&') : jsToLowerChar c ≠ '&' := by
  unfold jsToLowerChar
  split <;> first | decide | exact hc

/-- Helper for C10: for text free of literal `'&'`, decoding the
lowercased escaped text restores the lowercased text, quotes intact. -/
theorem decode_lower_escape (l : List Char) (h : '&' ∉ l) :
    decodeQuotList ((escapeQuotesList l).map jsToLowerChar) = l.map jsToLowerChar := by
  induction l with
  | nil => rfl
  | cons c cs ih =>
    have hamp : c ≠ '&' := fun he => h (he ▸ List.mem_cons_self c cs)
    have h2 : '&' ∉ cs := fun hm => h (List.mem_cons.mpr (Or.inr hm))
    by_cases hq : c = '"'
    · subst hq
      show '"' :: decodeQuotList ((escapeQuotesList cs).map jsToLowerChar) =
        '"' :: cs.map jsToLowerChar
      rw [ih h2]
    · rw [show escapeQuotesList (c :: cs) = c :: escapeQuotesList cs from by
        simp [escapeQuotesList, hq]]
      rw [List.map_cons]
      rw [decodeQuotList_cons_ne _ _ (jsToLowerChar_ne_amp c hamp), ih h2]
      rfl

/-- Helper for C10: a one-character needle is a substring iff present. -/
theorem listContainsSub_singleton (hay : List Char) (x : Char) (hx : x ∈ hay) :
    listContainsSub hay [x] = true := by
  induction hay with
  | nil => exact absurd hx (List.not_mem_nil x)
  | cons a t ih =>
    simp only [listContainsSub, Bool.or_eq_true]
    rcases List.mem_cons.mp hx with h | h
    · left
      subst h
      simp [listStarts]
    · right
      exact ih h

/-- C10 counterexample: for the display text `say "Hi"`, the stored
`data-full-text` value is the decoded `say "hi"` — not the pre-parse
template string `say &quot;hi&quot;` — and the quote-containing term
`"hi"` does match the entry, refuting both parts of the claim. -/
theorem searchKey_decoded_counterexample :
    generatePromptsList docQ [[0]] =
      [{ index := 0, number := 1, text := "say \"Hi\"",
         searchKey := "say \"hi\"" }] ∧
    ¬ ("say \"hi\"" = jsToLowerStr (escapeQuotes "say \"Hi\"")) ∧
    jsIncludes "say \"hi\"" (jsToLowerStr "\"hi\"") = true ∧
    searchDisplay "\"hi\"" ["say \"hi\""] = [true] := by
  decide

/-- C10 (amended): the template writes the display text with every
double quote escaped to `&quot;` and then lowercased, but the
`innerHTML` parse decodes the references, so the stored search key (the
`data-full-text` value read by `getAttribute`) is the decode of that
string — for display text free of a literal `'&'`, exactly the
lowercased display text with its quote characters intact; consequently
a search term containing a literal double quote can match an entry via
the original quote character in its display text. -/
theorem searchKey_decoding :
    (∀ (root : Elem) (msgs : List Path) (item : PromptItem),
      item ∈ generatePromptsList root msgs →
      item.searchKey = decodeQuot (jsToLowerStr (escapeQuotes item.text))) ∧
    (∀ text : String, '&' ∉ text.toList →
      decodeQuot (jsToLowerStr (escapeQuotes text)) = jsToLowerStr text) ∧
    (∀ text : String, '"' ∈ text.toList → '&' ∉ text.toList →
      jsIncludes (decodeQuot (jsToLowerStr (escapeQuotes text)))
        (jsToLowerStr "\"") = true) := by
  refine ⟨fun root msgs item h => ?_, fun text h => ?_, fun text hq hamp => ?_⟩
  · simp only [generatePromptsList, List.mem_map] at h
    obtain ⟨ip, _, rfl⟩ := h
    rfl
  · show String.mk (decodeQuotList ((escapeQuotesList text.toList).map jsToLowerChar)) =
      String.mk (text.toList.map jsToLowerChar)
    exact congrArg String.mk (decode_lower_escape text.toList h)
  · show listContainsSub
      (decodeQuotList ((escapeQuotesList text.toList).map jsToLowerChar)) ['"'] = true
    rw [decode_lower_escape text.toList hamp]
    exact listContainsSub_singleton _ '"' (List.mem_map.mpr ⟨'"', hq, rfl⟩)

/-- C10 witness: on the page whose message text is `say "Hi"`, the
rendered item's stored key is the decoded pipeline value, that value is
the lowercased display text with quotes intact, and the single-quote
term matches it. -/
theorem searchKey_decoding_witness :
    ({ index := 0, number := 1, text := "say \"Hi\"",
       searchKey := "say \"hi\"" } : PromptItem).searchKey =
        decodeQuot (jsToLowerStr (escapeQuotes "say \"Hi\"")) ∧
    decodeQuot (jsToLowerStr (escapeQuotes "say \"Hi\"")) =
      jsToLowerStr "say \"Hi\"" ∧
    jsIncludes (decodeQuot (jsToLowerStr (escapeQuotes "say \"Hi\"")))
      (jsToLowerStr "\"") = true :=
  ⟨searchKey_decoding.1 docQ [[0]]
      { index := 0, number := 1, text := "say \"Hi\"",
        searchKey := "say \"hi\"" } (by decide),
   searchKey_decoding.2.1 "say \"Hi\"" (by decide),
   searchKey_decoding.2.2 "say \"Hi\"" (by decide) (by decide)⟩

end ThreadNav
